import Mathlib

/-!
# Verification of the chunked media upload client (`twitter_mcp/media.py`)

This file gives a shallow embedding of `MediaManager` from
`src/twitter_mcp/media.py` and proves the specified properties of the
three-phase chunked upload protocol (initialize → append × N → finalize).

Modelling decisions:
* Byte payloads are `List Nat` (the chunking logic never inspects byte
  values, only lengths and positions).
* The HTTP boundary (`requests.post`) is a `Transport` record giving the
  response to the initialize call, to each append call (keyed by segment
  index), and to the finalize call.  A response carries its HTTP status
  code, its body text, and the optional `data.id` field of its JSON body.
* Each operation returns its result together with the list of network
  requests it issued, so that claims about which calls are (not) made are
  provable.
* Python `raise Exception(...)` sites are modelled by the inductive
  `UploadError`; each constructor carries exactly the data interpolated
  into the corresponding exception message in the source.
-/

namespace TwitterMcp

/-- HTTP response as observed by `media.py`: `status_code`, `text`, and the
`data.id` field extracted by `response.json().get('data', {}).get('id')`
(`none` when absent). -/
structure Response where
  status_code : Nat
  text : String
  dataId : Option String := none
deriving Repr, DecidableEq

/-- The HTTP boundary: responses the remote service returns to the
initialize call, to the append call for each segment index, and to the
finalize call. -/
structure Transport where
  init : Response
  append : Nat → Response
  finalize : Response

/-- One network request issued by the upload client. -/
inductive Request where
  | initUpload (media_type : String) (total_bytes : Nat) (media_category : String)
  | append (media_id : String) (segment_index : Nat) (chunk_data : List Nat)
  | finalize (media_id : String)
deriving Repr, DecidableEq

/-- The `raise Exception(...)` sites of `media.py`.  Each constructor
carries exactly the data interpolated into the exception message at that
site; `missingMediaId` (message `"未能获取media_id"`) carries nothing. -/
inductive UploadError where
  | fileNotFound (path : String)
  | initializationError (status_code : Nat) (text : String)
  | missingMediaId
  | appendError (segment_index : Nat) (status_code : Nat) (text : String)
  | finalizationError (status_code : Nat) (text : String)
deriving Repr, DecidableEq

/-- The file system as observed by `upload_media`: `os.path.exists` and the
bytes of each file (`os.path.getsize` is the length of those bytes). -/
structure FileSystem where
  pathExists : String → Bool
  fileBytes : String → List Nat

/-- `MEDIA_CATEGORIES`: the fixed MIME-type → category table of
`MediaManager`. -/
def MEDIA_CATEGORIES : List (String × String) :=
  [("image/jpeg", "tweet_image"),
   ("image/png", "tweet_image"),
   ("image/gif", "tweet_gif"),
   ("video/mp4", "tweet_video"),
   ("video/quicktime", "tweet_video")]

/-- `DEFAULT_CHUNK_SIZE = 1024 * 1024`. -/
def DEFAULT_CHUNK_SIZE : Nat := 1024 * 1024

/-- `_infer_media_category`: `MEDIA_CATEGORIES.get(media_type, 'tweet_image')`. -/
def infer_media_category (media_type : String) : String :=
  (MEDIA_CATEGORIES.lookup media_type).getD "tweet_image"

/-- Whether `s` ends with `suffix`, computed on the character lists. -/
def ends_with (s suffix : String) : Bool :=
  suffix.data.isSuffixOf s.data

/-- Model of the Python stdlib call `mimetypes.guess_type` for the
extensions relevant to this client: the standard extension-to-MIME
mapping, `none` when the extension is not recognized. -/
def guess_type (file_path : String) : Option String :=
  if ends_with file_path ".png" then some "image/png"
  else if ends_with file_path ".jpg" then some "image/jpeg"
  else if ends_with file_path ".jpeg" then some "image/jpeg"
  else if ends_with file_path ".gif" then some "image/gif"
  else if ends_with file_path ".mp4" then some "video/mp4"
  else if ends_with file_path ".mov" then some "video/quicktime"
  else none

/-- `_get_media_type`: guess the MIME type from the path, defaulting to
`application/octet-stream`, and pair it with its category. -/
def get_media_type (file_path : String) : String × String :=
  let media_type := (guess_type file_path).getD "application/octet-stream"
  (media_type, infer_media_category media_type)

/-- The id extraction of `_initialize_upload`:
`media_id = response.json().get('data', {}).get('id')` followed by the
falsiness test `if not media_id` (absent or empty string both fail). -/
def mediaIdOf (response : Response) : Option String :=
  match response.dataId with
  | none => none
  | some s => if s = "" then none else some s

/-- `_initialize_upload`: one POST to the initialize endpoint; non-200
status raises with the status and body, a missing/empty `data.id` raises
`"未能获取media_id"`. -/
def initializeUpload (t : Transport) (media_type : String) (file_size : Nat)
    (media_category : String) : Except UploadError String × List Request :=
  let response := t.init
  let trace := [Request.initUpload media_type file_size media_category]
  if response.status_code ≠ 200 then
    (Except.error (UploadError.initializationError response.status_code response.text), trace)
  else
    match mediaIdOf response with
    | none => (Except.error UploadError.missingMediaId, trace)
    | some media_id => (Except.ok media_id, trace)

/-- `_append_chunk`: one POST to the append endpoint for one segment;
non-200 status raises with the segment index, status and body. -/
def appendChunk (t : Transport) (media_id : String) (segment_index : Nat)
    (chunk_data : List Nat) : Except UploadError Unit × List Request :=
  let response := t.append segment_index
  let trace := [Request.append media_id segment_index chunk_data]
  if response.status_code ≠ 200 then
    (Except.error (UploadError.appendError segment_index response.status_code response.text), trace)
  else
    (Except.ok (), trace)

/-- `_finalize_upload`: one POST to the finalize endpoint; non-200 status
raises with the status and body. -/
def finalizeUpload (t : Transport) (media_id : String) :
    Except UploadError Unit × List Request :=
  let response := t.finalize
  let trace := [Request.finalize media_id]
  if response.status_code ≠ 200 then
    (Except.error (UploadError.finalizationError response.status_code response.text), trace)
  else
    (Except.ok (), trace)

/-- The chunk production of the `_upload_bytes` loop, network calls
stripped: starting at `offset` with segment counter `segment_index`,
slice `data[offset : offset + chunk_size]` while `offset < len(data)`.
Requires `0 < chunk_size` (with `chunk_size = 0` the Python loop does not
terminate). -/
def bytesChunksAux (chunk_size : Nat) (hc : 0 < chunk_size) (data : List Nat)
    (offset segment_index : Nat) : List (Nat × List Nat) :=
  if h : offset < data.length then
    (segment_index, (data.drop offset).take chunk_size) ::
      bytesChunksAux chunk_size hc data (offset + chunk_size) (segment_index + 1)
  else
    []
termination_by data.length - offset
decreasing_by
  omega

/-- The chunks produced by `_upload_bytes` for a payload, paired with
their segment indices. -/
def bytesChunks (chunk_size : Nat) (hc : 0 < chunk_size) (data : List Nat) :
    List (Nat × List Nat) :=
  bytesChunksAux chunk_size hc data 0 0

/-- The chunk production of the `_upload_chunks` loop, network calls
stripped: `f.read(chunk_size)` returns the next `min(chunk_size,
remaining)` bytes from the read position; an empty read terminates the
loop. -/
def fileChunksAux (chunk_size : Nat) (file : List Nat)
    (pos segment_index : Nat) : List (Nat × List Nat) :=
  if h : (file.drop pos).take chunk_size ≠ [] then
    (segment_index, (file.drop pos).take chunk_size) ::
      fileChunksAux chunk_size file
        (pos + ((file.drop pos).take chunk_size).length) (segment_index + 1)
  else
    []
termination_by file.length - pos
decreasing_by
  have hpos : 0 < ((file.drop pos).take chunk_size).length := List.length_pos.mpr h
  have hle : ((file.drop pos).take chunk_size).length ≤ file.length - pos := by
    simp [List.length_take]
  omega

/-- The chunks produced by `_upload_chunks` for a file's bytes, paired
with their segment indices. -/
def fileChunks (chunk_size : Nat) (file : List Nat) : List (Nat × List Nat) :=
  fileChunksAux chunk_size file 0 0

/-- Running `_append_chunk` over a list of (segment index, chunk) pairs in
order, stopping at the first failure, accumulating the issued requests. -/
def runAppends (t : Transport) (media_id : String) :
    List (Nat × List Nat) → Except UploadError Unit × List Request
  | [] => (Except.ok (), [])
  | (segment_index, chunk) :: rest =>
    match appendChunk t media_id segment_index chunk with
    | (Except.error e, tr) => (Except.error e, tr)
    | (Except.ok _, tr) =>
      let (res, tr2) := runAppends t media_id rest
      (res, tr ++ tr2)

/-- `_upload_bytes`: the slicing loop of `_upload_bytes` with its
`_append_chunk` call per chunk; aborts at the first failed append. -/
def uploadBytesAux (t : Transport) (chunk_size : Nat) (hc : 0 < chunk_size)
    (data : List Nat) (media_id : String) (offset segment_index : Nat) :
    Except UploadError Unit × List Request :=
  if h : offset < data.length then
    let chunk := (data.drop offset).take chunk_size
    match appendChunk t media_id segment_index chunk with
    | (Except.error e, tr) => (Except.error e, tr)
    | (Except.ok _, tr) =>
      let (res, tr2) :=
        uploadBytesAux t chunk_size hc data media_id (offset + chunk_size) (segment_index + 1)
      (res, tr ++ tr2)
  else
    (Except.ok (), [])
termination_by data.length - offset
decreasing_by
  omega

/-- `_upload_bytes` run from the start of the payload. -/
def uploadBytes (t : Transport) (chunk_size : Nat) (hc : 0 < chunk_size)
    (data : List Nat) (media_id : String) : Except UploadError Unit × List Request :=
  uploadBytesAux t chunk_size hc data media_id 0 0

/-- `_upload_chunks`: the file-read loop of `_upload_chunks` with its
`_append_chunk` call per chunk; aborts at the first failed append. -/
def uploadChunksAux (t : Transport) (chunk_size : Nat) (file : List Nat)
    (media_id : String) (pos segment_index : Nat) :
    Except UploadError Unit × List Request :=
  if h : (file.drop pos).take chunk_size ≠ [] then
    match appendChunk t media_id segment_index ((file.drop pos).take chunk_size) with
    | (Except.error e, tr) => (Except.error e, tr)
    | (Except.ok _, tr) =>
      let (res, tr2) :=
        uploadChunksAux t chunk_size file media_id
          (pos + ((file.drop pos).take chunk_size).length) (segment_index + 1)
      (res, tr ++ tr2)
  else
    (Except.ok (), [])
termination_by file.length - pos
decreasing_by
  have hpos : 0 < ((file.drop pos).take chunk_size).length := List.length_pos.mpr h
  have hle : ((file.drop pos).take chunk_size).length ≤ file.length - pos := by
    simp [List.length_take]
  omega

/-- `_upload_chunks` run from read position 0. -/
def uploadChunks (t : Transport) (chunk_size : Nat) (file : List Nat)
    (media_id : String) : Except UploadError Unit × List Request :=
  uploadChunksAux t chunk_size file media_id 0 0

/-- `upload_media`: check the path exists, determine size and media type,
then initialize → chunked append → finalize, returning the media id from
the initialize response. -/
def upload_media (fs : FileSystem) (t : Transport) (chunk_size : Nat)
    (file_path : String) : Except UploadError String × List Request :=
  if fs.pathExists file_path = false then
    (Except.error (UploadError.fileNotFound file_path), [])
  else
    let data := fs.fileBytes file_path
    let file_size := data.length
    let mc := get_media_type file_path
    match initializeUpload t mc.1 file_size mc.2 with
    | (Except.error e, tr) => (Except.error e, tr)
    | (Except.ok media_id, tr) =>
      match uploadChunks t chunk_size data media_id with
      | (Except.error e, tr2) => (Except.error e, tr ++ tr2)
      | (Except.ok _, tr2) =>
        match finalizeUpload t media_id with
        | (Except.error e, tr3) => (Except.error e, tr ++ tr2 ++ tr3)
        | (Except.ok _, tr3) => (Except.ok media_id, tr ++ tr2 ++ tr3)

/-- `upload_media_from_bytes`: size and category from the declared MIME
type, then initialize → chunked append → finalize, returning the media id
from the initialize response.  The `filename` parameter is accepted but
never read, as in the source. -/
def upload_media_from_bytes (t : Transport) (chunk_size : Nat) (hc : 0 < chunk_size)
    (media_data : List Nat) (media_type : String) (filename : String) :
    Except UploadError String × List Request :=
  let file_size := media_data.length
  let media_category := infer_media_category media_type
  match initializeUpload t media_type file_size media_category with
  | (Except.error e, tr) => (Except.error e, tr)
  | (Except.ok media_id, tr) =>
    match uploadBytes t chunk_size hc media_data media_id with
    | (Except.error e, tr2) => (Except.error e, tr ++ tr2)
    | (Except.ok _, tr2) =>
      match finalizeUpload t media_id with
      | (Except.error e, tr3) => (Except.error e, tr ++ tr2 ++ tr3)
      | (Except.ok _, tr3) => (Except.ok media_id, tr ++ tr2 ++ tr3)

/-- Closed form of the chunk lists: chunk `i` is
`data[i * chunk_size : (i + 1) * chunk_size]`, for
`i = 0, …, ceil(len / chunk_size) - 1`. -/
def chunksClosedForm (chunk_size : Nat) (data : List Nat) : List (Nat × List Nat) :=
  (List.range ((data.length + chunk_size - 1) / chunk_size)).map
    (fun i => (i, (data.drop (i * chunk_size)).take chunk_size))

/-- A transport whose three phases all succeed; the initialize response
carries the identifier `id`, the finalize response carries no identifier. -/
def okT (id : String) : Transport :=
  Transport.mk (Response.mk 200 "ok" (some id)) (fun _ => Response.mk 200 "ok" none)
    (Response.mk 200 "ok" none)

/-- A transport whose initialize response carries the identifier `mA`
while its finalize response carries the different identifier `mB`. -/
def mismatchT : Transport :=
  Transport.mk (Response.mk 200 "ok" (some "mA")) (fun _ => Response.mk 200 "ok" none)
    (Response.mk 200 "ok" (some "mB"))

/-- A transport whose append call for segment `k` fails with HTTP 500 and
body `boom`, all other calls succeeding; the initialize response carries
the identifier `m1`. -/
def failAtT (k : Nat) : Transport :=
  Transport.mk (Response.mk 200 "ok" (some "m1"))
    (fun j => if j = k then Response.mk 500 "boom" none else Response.mk 200 "ok" none)
    (Response.mk 200 "ok" none)

/-- A transport whose initialize response has HTTP status 200 but no
`data.id` field. -/
def noIdT : Transport :=
  Transport.mk (Response.mk 200 "ok" none) (fun _ => Response.mk 200 "ok" none)
    (Response.mk 200 "ok" none)

/-- A transport whose initialize response is an HTTP 401. -/
def badT : Transport :=
  Transport.mk (Response.mk 401 "unauthorized" none) (fun _ => Response.mk 200 "ok" none)
    (Response.mk 200 "ok" none)

/-- A file system on which every path exists with content `[1,2,3,4,5]`. -/
def smallFs : FileSystem :=
  FileSystem.mk (fun _ => true) (fun _ => [1, 2, 3, 4, 5])

/-! ## Master lemmas for the chunk-production loops -/

theorem bytesChunksAux_closedForm (c : Nat) (hc : 0 < c) (data : List Nat)
    (offset segment_index : Nat) :
    bytesChunksAux c hc data offset segment_index =
      (List.range ((data.length - offset + c - 1) / c)).map
        (fun i => (segment_index + i, (data.drop (offset + i * c)).take c)) := by
  rw [bytesChunksAux]
  split
  case isTrue h =>
    rw [bytesChunksAux_closedForm c hc data (offset + c) (segment_index + 1)]
    have hm : 1 ≤ data.length - offset := by omega
    have hn : (data.length - offset + c - 1) / c = (data.length - offset - 1) / c + 1 := by
      have he : data.length - offset + c - 1 = (data.length - offset - 1) + c := by omega
      rw [he, Nat.add_div_right _ hc]
    have hn2 : (data.length - (offset + c) + c - 1) / c = (data.length - offset - 1) / c := by
      rcases le_or_lt (data.length - offset) c with hle | hlt
      · have h1 : data.length - (offset + c) = 0 := by omega
        rw [h1, Nat.div_eq_of_lt (by omega), Nat.div_eq_of_lt (by omega)]
      · have h1 : data.length - (offset + c) + c - 1 = data.length - offset - 1 := by omega
        rw [h1]
    rw [hn, hn2, List.range_succ_eq_map, List.map_cons, List.map_map]
    refine congrArg₂ _ ?_ ?_
    · simp
    · refine List.map_congr_left (fun i _ => ?_)
      have h2 : offset + Nat.succ i * c = offset + c + i * c := by
        rw [Nat.succ_mul]; omega
      simp [Function.comp, h2]
      omega
  case isFalse h =>
    have h0 : data.length - offset = 0 := by omega
    rw [h0, Nat.zero_add, Nat.div_eq_of_lt (by omega)]
    simp

theorem bytesChunks_closedForm (c : Nat) (hc : 0 < c) (data : List Nat) :
    bytesChunks c hc data = chunksClosedForm c data := by
  rw [bytesChunks, bytesChunksAux_closedForm, chunksClosedForm]
  simp

/-- For a positive chunk size the file-read loop produces the same chunks
as the memory-slicing loop. -/
theorem fileChunksAux_eq_bytesChunksAux (c : Nat) (hc : 0 < c) (file : List Nat)
    (pos segment_index : Nat) :
    fileChunksAux c file pos segment_index =
      bytesChunksAux c hc file pos segment_index := by
  rw [fileChunksAux, bytesChunksAux]
  by_cases hpos : pos < file.length
  · have hne : (file.drop pos).take c ≠ [] := by
      have : ((file.drop pos).take c).length = min c (file.length - pos) := by
        simp [List.length_take]
      intro hnil
      rw [hnil] at this
      simp at this
      omega
    rw [dif_pos hne, dif_pos hpos]
    refine congrArg₂ _ rfl ?_
    rcases le_or_lt c (file.length - pos) with hle | hlt
    · have hlen : ((file.drop pos).take c).length = c := by
        simp [List.length_take]
        omega
      rw [hlen]
      exact fileChunksAux_eq_bytesChunksAux c hc file (pos + c) (segment_index + 1)
    · have hlen : ((file.drop pos).take c).length = file.length - pos := by
        simp [List.length_take]
        omega
      rw [hlen]
      rw [fileChunksAux, bytesChunksAux]
      rw [dif_neg (by simp [List.drop_eq_nil_of_le]; omega), dif_neg (by omega)]
  · have hnil : (file.drop pos).take c = [] := by
      rw [List.drop_eq_nil_of_le (by omega)]
      simp
    rw [dif_neg (by simp [hnil]), dif_neg hpos]
termination_by file.length - pos
decreasing_by
  omega

theorem fileChunks_closedForm (c : Nat) (hc : 0 < c) (file : List Nat) :
    fileChunks c file = chunksClosedForm c file := by
  rw [fileChunks, fileChunksAux_eq_bytesChunksAux c hc]
  rw [← bytesChunks, bytesChunks_closedForm]

/-- Concatenating the chunk bytes of the slicing loop, from any offset,
reproduces the rest of the payload. -/
theorem bytesChunksAux_join (c : Nat) (hc : 0 < c) (data : List Nat)
    (offset segment_index : Nat) :
    ((bytesChunksAux c hc data offset segment_index).map Prod.snd).flatten =
      data.drop offset := by
  rw [bytesChunksAux]
  split
  case isTrue h =>
    rw [List.map_cons, List.flatten_cons,
      bytesChunksAux_join c hc data (offset + c) (segment_index + 1)]
    have hdd : data.drop (offset + c) = (data.drop offset).drop c := by
      rw [List.drop_drop]
    rw [hdd, List.take_append_drop]
  case isFalse h =>
    rw [List.drop_eq_nil_of_le (by omega)]
    simp
termination_by data.length - offset
decreasing_by
  omega

/-! ## Run-level lemmas: the append loops are `runAppends` over the chunk lists -/

theorem uploadBytesAux_eq_runAppends (t : Transport) (c : Nat) (hc : 0 < c)
    (data : List Nat) (media_id : String) (offset segment_index : Nat) :
    uploadBytesAux t c hc data media_id offset segment_index =
      runAppends t media_id (bytesChunksAux c hc data offset segment_index) := by
  rw [uploadBytesAux, bytesChunksAux]
  split
  case isTrue h =>
    rw [runAppends]
    rw [uploadBytesAux_eq_runAppends t c hc data media_id (offset + c) (segment_index + 1)]
  case isFalse h =>
    rw [runAppends]
termination_by data.length - offset
decreasing_by
  omega

theorem uploadChunksAux_eq_runAppends (t : Transport) (c : Nat) (file : List Nat)
    (media_id : String) (pos segment_index : Nat) :
    uploadChunksAux t c file media_id pos segment_index =
      runAppends t media_id (fileChunksAux c file pos segment_index) := by
  rw [uploadChunksAux, fileChunksAux]
  split
  case isTrue h =>
    rw [runAppends]
    rw [uploadChunksAux_eq_runAppends t c file media_id
      (pos + ((file.drop pos).take c).length) (segment_index + 1)]
  case isFalse h =>
    rw [runAppends]
termination_by file.length - pos
decreasing_by
  have hne : (file.drop pos).take c ≠ [] := by assumption
  have hpos : 0 < ((file.drop pos).take c).length := List.length_pos.mpr hne
  have hle : ((file.drop pos).take c).length ≤ file.length - pos := by
    simp [List.length_take]
  omega

/-- When every append in the list gets a 200 response, `runAppends`
succeeds and issues exactly one append request per chunk, in order. -/
theorem runAppends_ok (t : Transport) (media_id : String)
    (l : List (Nat × List Nat))
    (h : ∀ p ∈ l, (t.append p.1).status_code = 200) :
    runAppends t media_id l =
      (Except.ok (), l.map (fun p => Request.append media_id p.1 p.2)) := by
  induction l with
  | nil => rw [runAppends]; rfl
  | cons p rest ih =>
    rcases p with ⟨segment_index, chunk⟩
    rw [runAppends, appendChunk]
    have h200 : (t.append segment_index).status_code = 200 :=
      h _ (List.mem_cons_self _ _)
    rw [if_neg (by simp [h200])]
    simp only
    rw [ih (fun p hp => h p (List.mem_cons_of_mem _ hp))]
    simp

/-- When the appends before position `k` get 200 responses and the one for
segment `k` does not, `runAppends` stops at `k` with an `appendError`
carrying the segment index, status and body, having issued exactly the
appends up to and including segment `k`. -/
theorem runAppends_fail (t : Transport) (media_id : String)
    (l1 : List (Nat × List Nat)) (k : Nat) (ch : List Nat)
    (l2 : List (Nat × List Nat))
    (h1 : ∀ p ∈ l1, (t.append p.1).status_code = 200)
    (hk : (t.append k).status_code ≠ 200) :
    runAppends t media_id (l1 ++ (k, ch) :: l2) =
      (Except.error (UploadError.appendError k (t.append k).status_code (t.append k).text),
        l1.map (fun p => Request.append media_id p.1 p.2) ++
          [Request.append media_id k ch]) := by
  induction l1 with
  | nil =>
    rw [List.nil_append, runAppends, appendChunk]
    rw [if_pos hk]
    simp
  | cons p rest ih =>
    rcases p with ⟨segment_index, chunk⟩
    rw [List.cons_append, runAppends, appendChunk]
    have h200 : (t.append segment_index).status_code = 200 :=
      h1 _ (List.mem_cons_self _ _)
    rw [if_neg (by simp [h200])]
    simp only
    rw [ih (fun p hp => h1 p (List.mem_cons_of_mem _ hp))]
    simp

/-! ## Phase lemmas -/

theorem initializeUpload_ok (t : Transport) (media_type : String) (file_size : Nat)
    (media_category : String) (id : String)
    (hst : t.init.status_code = 200) (hid : mediaIdOf t.init = some id) :
    initializeUpload t media_type file_size media_category =
      (Except.ok id, [Request.initUpload media_type file_size media_category]) := by
  rw [initializeUpload]
  rw [if_neg (by simp [hst])]
  rw [hid]

theorem initializeUpload_badStatus (t : Transport) (media_type : String)
    (file_size : Nat) (media_category : String)
    (hst : t.init.status_code ≠ 200) :
    initializeUpload t media_type file_size media_category =
      (Except.error (UploadError.initializationError t.init.status_code t.init.text),
        [Request.initUpload media_type file_size media_category]) := by
  rw [initializeUpload]
  rw [if_pos hst]

theorem initializeUpload_noId (t : Transport) (media_type : String)
    (file_size : Nat) (media_category : String)
    (hst : t.init.status_code = 200) (hid : mediaIdOf t.init = none) :
    initializeUpload t media_type file_size media_category =
      (Except.error UploadError.missingMediaId,
        [Request.initUpload media_type file_size media_category]) := by
  rw [initializeUpload]
  rw [if_neg (by simp [hst])]
  rw [hid]

theorem finalizeUpload_ok (t : Transport) (media_id : String)
    (hfin : t.finalize.status_code = 200) :
    finalizeUpload t media_id = (Except.ok (), [Request.finalize media_id]) := by
  rw [finalizeUpload]
  rw [if_neg (by simp [hfin])]

theorem uploadBytes_eq_runAppends (t : Transport) (c : Nat) (hc : 0 < c)
    (data : List Nat) (media_id : String) :
    uploadBytes t c hc data media_id =
      runAppends t media_id (bytesChunks c hc data) := by
  rw [uploadBytes, uploadBytesAux_eq_runAppends, bytesChunks]

theorem uploadChunks_eq_runAppends (t : Transport) (c : Nat) (file : List Nat)
    (media_id : String) :
    uploadChunks t c file media_id =
      runAppends t media_id (fileChunks c file) := by
  rw [uploadChunks, uploadChunksAux_eq_runAppends, fileChunks]

/-! ## Whole-upload characterizations -/

theorem upload_media_from_bytes_success (t : Transport) (c : Nat) (hc : 0 < c)
    (media_data : List Nat) (media_type filename id : String)
    (hst : t.init.status_code = 200) (hid : mediaIdOf t.init = some id)
    (happ : ∀ p ∈ bytesChunks c hc media_data, (t.append p.1).status_code = 200)
    (hfin : t.finalize.status_code = 200) :
    upload_media_from_bytes t c hc media_data media_type filename =
      (Except.ok id,
        Request.initUpload media_type media_data.length (infer_media_category media_type) ::
          ((bytesChunks c hc media_data).map (fun p => Request.append id p.1 p.2) ++
            [Request.finalize id])) := by
  simp only [upload_media_from_bytes,
    initializeUpload_ok t media_type media_data.length
      (infer_media_category media_type) id hst hid,
    uploadBytes_eq_runAppends, runAppends_ok t id _ happ,
    finalizeUpload_ok t id hfin]
  simp

theorem upload_media_from_bytes_badStatus (t : Transport) (c : Nat) (hc : 0 < c)
    (media_data : List Nat) (media_type filename : String)
    (hst : t.init.status_code ≠ 200) :
    upload_media_from_bytes t c hc media_data media_type filename =
      (Except.error (UploadError.initializationError t.init.status_code t.init.text),
        [Request.initUpload media_type media_data.length
          (infer_media_category media_type)]) := by
  simp only [upload_media_from_bytes,
    initializeUpload_badStatus t media_type media_data.length
      (infer_media_category media_type) hst]

theorem upload_media_from_bytes_noId (t : Transport) (c : Nat) (hc : 0 < c)
    (media_data : List Nat) (media_type filename : String)
    (hst : t.init.status_code = 200) (hid : mediaIdOf t.init = none) :
    upload_media_from_bytes t c hc media_data media_type filename =
      (Except.error UploadError.missingMediaId,
        [Request.initUpload media_type media_data.length
          (infer_media_category media_type)]) := by
  simp only [upload_media_from_bytes,
    initializeUpload_noId t media_type media_data.length
      (infer_media_category media_type) hst hid]

theorem upload_media_from_bytes_appendFail (t : Transport) (c : Nat) (hc : 0 < c)
    (media_data : List Nat) (media_type filename id : String)
    (l1 : List (Nat × List Nat)) (k : Nat) (ch : List Nat) (l2 : List (Nat × List Nat))
    (hst : t.init.status_code = 200) (hid : mediaIdOf t.init = some id)
    (hsplit : bytesChunks c hc media_data = l1 ++ (k, ch) :: l2)
    (h1 : ∀ p ∈ l1, (t.append p.1).status_code = 200)
    (hk : (t.append k).status_code ≠ 200) :
    upload_media_from_bytes t c hc media_data media_type filename =
      (Except.error (UploadError.appendError k (t.append k).status_code (t.append k).text),
        Request.initUpload media_type media_data.length (infer_media_category media_type) ::
          (l1.map (fun p => Request.append id p.1 p.2) ++
            [Request.append id k ch])) := by
  simp only [upload_media_from_bytes,
    initializeUpload_ok t media_type media_data.length
      (infer_media_category media_type) id hst hid,
    uploadBytes_eq_runAppends, hsplit, runAppends_fail t id l1 k ch l2 h1 hk]
  simp

theorem upload_media_notFound (fs : FileSystem) (t : Transport) (c : Nat)
    (file_path : String) (h : fs.pathExists file_path = false) :
    upload_media fs t c file_path =
      (Except.error (UploadError.fileNotFound file_path), []) := by
  rw [upload_media]
  rw [if_pos (by simp [h])]

theorem upload_media_success (fs : FileSystem) (t : Transport) (c : Nat) (hc : 0 < c)
    (file_path id : String)
    (hex : fs.pathExists file_path = true)
    (hst : t.init.status_code = 200) (hid : mediaIdOf t.init = some id)
    (happ : ∀ p ∈ fileChunks c (fs.fileBytes file_path), (t.append p.1).status_code = 200)
    (hfin : t.finalize.status_code = 200) :
    upload_media fs t c file_path =
      (Except.ok id,
        Request.initUpload (get_media_type file_path).1 (fs.fileBytes file_path).length
            (get_media_type file_path).2 ::
          ((fileChunks c (fs.fileBytes file_path)).map
              (fun p => Request.append id p.1 p.2) ++
            [Request.finalize id])) := by
  rw [upload_media]
  rw [if_neg (by simp [hex])]
  simp only [initializeUpload_ok t (get_media_type file_path).1
      (fs.fileBytes file_path).length (get_media_type file_path).2 id hst hid,
    uploadChunks_eq_runAppends, runAppends_ok t id _ happ,
    finalizeUpload_ok t id hfin]
  simp

theorem upload_media_badStatus (fs : FileSystem) (t : Transport) (c : Nat)
    (file_path : String)
    (hex : fs.pathExists file_path = true)
    (hst : t.init.status_code ≠ 200) :
    upload_media fs t c file_path =
      (Except.error (UploadError.initializationError t.init.status_code t.init.text),
        [Request.initUpload (get_media_type file_path).1 (fs.fileBytes file_path).length
          (get_media_type file_path).2]) := by
  rw [upload_media]
  rw [if_neg (by simp [hex])]
  simp only [initializeUpload_badStatus t (get_media_type file_path).1
    (fs.fileBytes file_path).length (get_media_type file_path).2 hst]

theorem upload_media_noId (fs : FileSystem) (t : Transport) (c : Nat)
    (file_path : String)
    (hex : fs.pathExists file_path = true)
    (hst : t.init.status_code = 200) (hid : mediaIdOf t.init = none) :
    upload_media fs t c file_path =
      (Except.error UploadError.missingMediaId,
        [Request.initUpload (get_media_type file_path).1 (fs.fileBytes file_path).length
          (get_media_type file_path).2]) := by
  rw [upload_media]
  rw [if_neg (by simp [hex])]
  simp only [initializeUpload_noId t (get_media_type file_path).1
    (fs.fileBytes file_path).length (get_media_type file_path).2 hst hid]

theorem upload_media_appendFail (fs : FileSystem) (t : Transport) (c : Nat)
    (file_path id : String)
    (l1 : List (Nat × List Nat)) (k : Nat) (ch : List Nat) (l2 : List (Nat × List Nat))
    (hex : fs.pathExists file_path = true)
    (hst : t.init.status_code = 200) (hid : mediaIdOf t.init = some id)
    (hsplit : fileChunks c (fs.fileBytes file_path) = l1 ++ (k, ch) :: l2)
    (h1 : ∀ p ∈ l1, (t.append p.1).status_code = 200)
    (hk : (t.append k).status_code ≠ 200) :
    upload_media fs t c file_path =
      (Except.error (UploadError.appendError k (t.append k).status_code (t.append k).text),
        Request.initUpload (get_media_type file_path).1 (fs.fileBytes file_path).length
            (get_media_type file_path).2 ::
          (l1.map (fun p => Request.append id p.1 p.2) ++
            [Request.append id k ch])) := by
  rw [upload_media]
  rw [if_neg (by simp [hex])]
  simp only [initializeUpload_ok t (get_media_type file_path).1
      (fs.fileBytes file_path).length (get_media_type file_path).2 id hst hid,
    uploadChunks_eq_runAppends, hsplit, runAppends_fail t id l1 k ch l2 h1 hk]
  simp

theorem DEFAULT_CHUNK_SIZE_pos : 0 < DEFAULT_CHUNK_SIZE := by
  norm_num [DEFAULT_CHUNK_SIZE]

/-! ## Claims -/

/-- C1: for every payload of `S` bytes and every chunk size `C > 0`, the
memory-backed loop of `_upload_bytes` and the file-backed loop of
`_upload_chunks` each produce exactly `ceil(S/C)` chunks, each of length
at most `C`; concatenating the chunk bytes in segment-index order
reproduces the payload exactly, and the chunk lengths sum to `S`. -/
theorem claim_C1 (c : Nat) (hc : 0 < c) (data : List Nat) :
    (bytesChunks c hc data).length = (data.length + c - 1) / c ∧
    (fileChunks c data).length = (data.length + c - 1) / c ∧
    (∀ p ∈ bytesChunks c hc data, p.2.length ≤ c) ∧
    (∀ p ∈ fileChunks c data, p.2.length ≤ c) ∧
    ((bytesChunks c hc data).map Prod.snd).flatten = data ∧
    ((fileChunks c data).map Prod.snd).flatten = data ∧
    ((bytesChunks c hc data).map (fun p => p.2.length)).sum = data.length ∧
    ((fileChunks c data).map (fun p => p.2.length)).sum = data.length := by
  have hb := bytesChunks_closedForm c hc data
  have hf := fileChunks_closedForm c hc data
  have hbf : fileChunks c data = bytesChunks c hc data := by rw [hb, hf]
  have hjoin : ((bytesChunks c hc data).map Prod.snd).flatten = data := by
    rw [bytesChunks, bytesChunksAux_join]
    simp
  have hsum : ((bytesChunks c hc data).map (fun p => p.2.length)).sum = data.length := by
    have hlen := congrArg List.length hjoin
    simpa [List.map_map, Function.comp] using hlen
  have hle : ∀ p ∈ bytesChunks c hc data, p.2.length ≤ c := by
    rw [hb]
    intro p hp
    simp only [chunksClosedForm, List.mem_map, List.mem_range] at hp
    rcases hp with ⟨i, _, rfl⟩
    simp only [List.length_take]
    exact min_le_left _ _
  refine ⟨?_, ?_, hle, ?_, hjoin, ?_, hsum, ?_⟩
  · rw [hb]
    simp [chunksClosedForm]
  · rw [hbf, hb]
    simp [chunksClosedForm]
  · rw [hbf]
    exact hle
  · rw [hbf]
    exact hjoin
  · rw [hbf]
    exact hsum

/-- C1 witness: the property instantiated at chunk size 2 and the
five-byte payload `[7, 8, 9, 10, 11]`. -/
theorem claim_C1_witness :
    0 < 2 ∧
      ((bytesChunks 2 (Nat.zero_lt_succ 1) [7, 8, 9, 10, 11]).length = (5 + 2 - 1) / 2 ∧
        (fileChunks 2 [7, 8, 9, 10, 11]).length = (5 + 2 - 1) / 2 ∧
        (∀ p ∈ bytesChunks 2 (Nat.zero_lt_succ 1) [7, 8, 9, 10, 11], p.2.length ≤ 2) ∧
        (∀ p ∈ fileChunks 2 [7, 8, 9, 10, 11], p.2.length ≤ 2) ∧
        ((bytesChunks 2 (Nat.zero_lt_succ 1) [7, 8, 9, 10, 11]).map Prod.snd).flatten =
          [7, 8, 9, 10, 11] ∧
        ((fileChunks 2 [7, 8, 9, 10, 11]).map Prod.snd).flatten = [7, 8, 9, 10, 11] ∧
        ((bytesChunks 2 (Nat.zero_lt_succ 1) [7, 8, 9, 10, 11]).map
            (fun p => p.2.length)).sum = 5 ∧
        ((fileChunks 2 [7, 8, 9, 10, 11]).map (fun p => p.2.length)).sum = 5) := by
  refine ⟨Nat.zero_lt_succ 1, ?_⟩
  have h := claim_C1 2 (Nat.zero_lt_succ 1) [7, 8, 9, 10, 11]
  simpa using h

/-- C2: for every payload, the segment indices of the chunks produced by
either loop are exactly `0, 1, …, N-1` in strictly increasing order with
no gaps and no repeats, and the chunk carrying index `i` holds the `i`-th
contiguous slice `data[i*C : (i+1)*C]` of the payload. -/
theorem claim_C2 (c : Nat) (hc : 0 < c) (data : List Nat) :
    (bytesChunks c hc data).map Prod.fst = List.range (bytesChunks c hc data).length ∧
    (fileChunks c data).map Prod.fst = List.range (fileChunks c data).length ∧
    (∀ i, ∀ h : i < (bytesChunks c hc data).length,
      (bytesChunks c hc data).get ⟨i, h⟩ = (i, (data.drop (i * c)).take c)) ∧
    (∀ i, ∀ h : i < (fileChunks c data).length,
      (fileChunks c data).get ⟨i, h⟩ = (i, (data.drop (i * c)).take c)) := by
  have hb := bytesChunks_closedForm c hc data
  have hf := fileChunks_closedForm c hc data
  have hbf : fileChunks c data = bytesChunks c hc data := by rw [hb, hf]
  have hfst : (bytesChunks c hc data).map Prod.fst =
      List.range (bytesChunks c hc data).length := by
    rw [hb]
    simp only [chunksClosedForm, List.map_map, List.length_map, List.length_range]
    have hcomp : (Prod.fst ∘ fun i : Nat => (i, (data.drop (i * c)).take c)) = id := by
      funext i
      rfl
    rw [hcomp, List.map_id]
  have hgetb : ∀ i, ∀ h : i < (bytesChunks c hc data).length,
      (bytesChunks c hc data).get ⟨i, h⟩ = (i, (data.drop (i * c)).take c) := by
    intro i h
    rw [List.get_eq_getElem, List.getElem_of_eq hb]
    simp [chunksClosedForm]
  have hgetf : ∀ i, ∀ h : i < (fileChunks c data).length,
      (fileChunks c data).get ⟨i, h⟩ = (i, (data.drop (i * c)).take c) := by
    intro i h
    rw [List.get_eq_getElem, List.getElem_of_eq hf]
    simp [chunksClosedForm]
  exact ⟨hfst, by rw [hbf]; exact hfst, hgetb, hgetf⟩

/-- C2 witness: the property instantiated at chunk size 2 and the
five-byte payload `[7, 8, 9, 10, 11]`. -/
theorem claim_C2_witness :
    0 < 2 ∧
      ((bytesChunks 2 (Nat.zero_lt_succ 1) [7, 8, 9, 10, 11]).map Prod.fst =
          List.range (bytesChunks 2 (Nat.zero_lt_succ 1) [7, 8, 9, 10, 11]).length ∧
        (fileChunks 2 [7, 8, 9, 10, 11]).map Prod.fst =
          List.range (fileChunks 2 [7, 8, 9, 10, 11]).length ∧
        (∀ i, ∀ h : i < (bytesChunks 2 (Nat.zero_lt_succ 1) [7, 8, 9, 10, 11]).length,
          (bytesChunks 2 (Nat.zero_lt_succ 1) [7, 8, 9, 10, 11]).get ⟨i, h⟩ =
            (i, (([7, 8, 9, 10, 11] : List Nat).drop (i * 2)).take 2)) ∧
        (∀ i, ∀ h : i < (fileChunks 2 [7, 8, 9, 10, 11]).length,
          (fileChunks 2 [7, 8, 9, 10, 11]).get ⟨i, h⟩ =
            (i, (([7, 8, 9, 10, 11] : List Nat).drop (i * 2)).take 2))) :=
  ⟨Nat.zero_lt_succ 1, claim_C2 2 (Nat.zero_lt_succ 1) [7, 8, 9, 10, 11]⟩

/-- C7: for a positive chunk size, chunk production terminates on every
finite payload: each loop yields a finite chunk sequence, of length at
most the payload length. -/
theorem claim_C7 (c : Nat) (hc : 0 < c) (data file : List Nat) :
    (bytesChunks c hc data).length ≤ data.length ∧
    (fileChunks c file).length ≤ file.length := by
  have hdiv : ∀ n : Nat, (n + c - 1) / c ≤ n := by
    intro n
    have h1 : n ≤ c * n := Nat.le_mul_of_pos_left _ hc
    rw [Nat.div_le_iff_le_mul_add_pred hc]
    omega
  constructor
  · rw [bytesChunks_closedForm c hc data]
    simpa [chunksClosedForm] using hdiv data.length
  · rw [fileChunks_closedForm c hc file]
    simpa [chunksClosedForm] using hdiv file.length

/-- C7 witness: the bound instantiated at chunk size 3 and two concrete
payloads. -/
theorem claim_C7_witness :
    0 < 3 ∧
      ((bytesChunks 3 (Nat.zero_lt_succ 2) [1, 2, 3, 4]).length ≤ 4 ∧
        (fileChunks 3 [5, 6]).length ≤ 2) :=
  ⟨Nat.zero_lt_succ 2, claim_C7 3 (Nat.zero_lt_succ 2) [1, 2, 3, 4] [5, 6]⟩

/-- C8: media type resolution is pure: a recognized extension maps to the
standard MIME type (`a.png` → `image/png`, category `tweet_image`); an
unrecognized extension defaults to `application/octet-stream`; the
category table sends image formats to `tweet_image`, `image/gif` to
`tweet_gif`, the video formats to `tweet_video`, and every MIME type
outside the table to `tweet_image`. -/
theorem claim_C8 :
    get_media_type "a.png" = ("image/png", "tweet_image") ∧
    get_media_type "a.unknownext" = ("application/octet-stream", "tweet_image") ∧
    (∀ f, guess_type f = none →
      get_media_type f = ("application/octet-stream", "tweet_image")) ∧
    infer_media_category "image/jpeg" = "tweet_image" ∧
    infer_media_category "image/png" = "tweet_image" ∧
    infer_media_category "image/gif" = "tweet_gif" ∧
    infer_media_category "video/mp4" = "tweet_video" ∧
    infer_media_category "video/quicktime" = "tweet_video" ∧
    (∀ mt, MEDIA_CATEGORIES.lookup mt = none →
      infer_media_category mt = "tweet_image") := by
  refine ⟨by decide, by decide, ?_, by decide, by decide, by decide, by decide, by decide, ?_⟩
  · intro f hf
    rw [get_media_type, hf]
    rfl
  · intro mt hmt
    rw [infer_media_category, hmt]
    rfl

/-- C8 witness: the two conditional clauses instantiated at the concrete
inputs `"b.xyz"` and `"application/pdf"`. -/
theorem claim_C8_witness :
    guess_type "b.xyz" = none ∧
    get_media_type "b.xyz" = ("application/octet-stream", "tweet_image") ∧
    MEDIA_CATEGORIES.lookup "application/pdf" = none ∧
    infer_media_category "application/pdf" = "tweet_image" :=
  ⟨by decide, claim_C8.2.2.1 "b.xyz" (by decide), by decide,
    claim_C8.2.2.2.2.2.2.2.2 "application/pdf" (by decide)⟩

/-- C9: for every file path that does not exist, `upload_media` fails with
the file-not-found error before issuing any network request (the request
trace is empty). -/
theorem claim_C9 (fs : FileSystem) (t : Transport) (chunk_size : Nat)
    (file_path : String) (h : fs.pathExists file_path = false) :
    upload_media fs t chunk_size file_path =
      (Except.error (UploadError.fileNotFound file_path), []) :=
  upload_media_notFound fs t chunk_size file_path h

/-- C9 witness: a file system on which no path exists. -/
theorem claim_C9_witness :
    (FileSystem.mk (fun _ => false) (fun _ => [])).pathExists "a.png" = false ∧
    upload_media (FileSystem.mk (fun _ => false) (fun _ => []))
        (Transport.mk (Response.mk 200 "ok" (some "m1")) (fun _ => Response.mk 200 "ok" none)
          (Response.mk 200 "ok" none)) 5 "a.png" =
      (Except.error (UploadError.fileNotFound "a.png"), []) :=
  ⟨rfl,
    claim_C9 (FileSystem.mk (fun _ => false) (fun _ => []))
      (Transport.mk (Response.mk 200 "ok" (some "m1")) (fun _ => Response.mk 200 "ok" none)
        (Response.mk 200 "ok" none)) 5 "a.png" rfl⟩

/-- C10: `upload_media_from_bytes` does not depend on its `filename`
argument: for any two filenames it issues the identical request sequence
and returns the same result. -/
theorem claim_C10 (t : Transport) (chunk_size : Nat) (hc : 0 < chunk_size)
    (media_data : List Nat) (media_type f1 f2 : String) :
    upload_media_from_bytes t chunk_size hc media_data media_type f1 =
      upload_media_from_bytes t chunk_size hc media_data media_type f2 :=
  rfl

/-- C10 witness: the invariance instantiated at two concrete filenames. -/
theorem claim_C10_witness :
    0 < 4 ∧
      upload_media_from_bytes
          (Transport.mk (Response.mk 200 "ok" (some "m1")) (fun _ => Response.mk 200 "ok" none)
            (Response.mk 200 "ok" none)) 4 (Nat.zero_lt_succ 3) [1, 2, 3] "image/png" "x.bin" =
        upload_media_from_bytes
          (Transport.mk (Response.mk 200 "ok" (some "m1")) (fun _ => Response.mk 200 "ok" none)
            (Response.mk 200 "ok" none)) 4 (Nat.zero_lt_succ 3) [1, 2, 3] "image/png" "y.png" :=
  ⟨Nat.zero_lt_succ 3,
    claim_C10
      (Transport.mk (Response.mk 200 "ok" (some "m1")) (fun _ => Response.mk 200 "ok" none)
        (Response.mk 200 "ok" none)) 4 (Nat.zero_lt_succ 3) [1, 2, 3] "image/png" "x.bin" "y.png"⟩

theorem range_split (k m : Nat) :
    List.range (k + m + 1) = List.range k ++ k :: List.range' (k + 1) m := by
  rw [List.range_eq_range', List.range_eq_range']
  have key := (List.range'_append_1 0 k (m + 1)).symm
  have h2 : (m + 1) + k = k + m + 1 := by omega
  rw [h2] at key
  rw [key, Nat.zero_add, List.range'_succ]

/-- C4: if the append call for segment `k` fails while all earlier ones
succeed, the upload aborts immediately: the appends issued are exactly
those for segments `0..k`, no finalize request is issued, and the error
carries the segment index, the response status code and the response
body. -/
theorem claim_C4 (fs : FileSystem) (t : Transport) (c : Nat) (hc : 0 < c)
    (file_path id : String) (k : Nat)
    (hex : fs.pathExists file_path = true)
    (hst : t.init.status_code = 200) (hid : mediaIdOf t.init = some id)
    (hk_lt : k < (fileChunks c (fs.fileBytes file_path)).length)
    (h1 : ∀ j, j < k → (t.append j).status_code = 200)
    (hk : (t.append k).status_code ≠ 200) :
    upload_media fs t c file_path =
      (Except.error (UploadError.appendError k (t.append k).status_code (t.append k).text),
        Request.initUpload (get_media_type file_path).1 (fs.fileBytes file_path).length
            (get_media_type file_path).2 ::
          (List.range (k + 1)).map
            (fun j => Request.append id j (((fs.fileBytes file_path).drop (j * c)).take c))) ∧
    (∀ m, Request.finalize m ∉ (upload_media fs t c file_path).2) ∧
    (∀ m j ch, Request.append m j ch ∈ (upload_media fs t c file_path).2 → j ≤ k) := by
  have hcf := fileChunks_closedForm c hc (fs.fileBytes file_path)
  have hn : k < ((fs.fileBytes file_path).length + c - 1) / c := by
    rw [hcf] at hk_lt
    simpa [chunksClosedForm] using hk_lt
  obtain ⟨m, hm⟩ : ∃ m, ((fs.fileBytes file_path).length + c - 1) / c = k + m + 1 :=
    ⟨((fs.fileBytes file_path).length + c - 1) / c - k - 1, by omega⟩
  have hsplit : fileChunks c (fs.fileBytes file_path) =
      ((List.range k).map
          (fun i => (i, ((fs.fileBytes file_path).drop (i * c)).take c))) ++
        (k, ((fs.fileBytes file_path).drop (k * c)).take c) ::
          ((List.range' (k + 1) m).map
            (fun i => (i, ((fs.fileBytes file_path).drop (i * c)).take c))) := by
    rw [hcf, chunksClosedForm, hm, range_split]
    simp
  have h1' : ∀ p ∈ (List.range k).map
      (fun i => (i, ((fs.fileBytes file_path).drop (i * c)).take c)),
      (t.append p.1).status_code = 200 := by
    intro p hp
    simp only [List.mem_map, List.mem_range] at hp
    rcases hp with ⟨j, hj, rfl⟩
    exact h1 j hj
  have hmain := upload_media_appendFail fs t c file_path id _ k
    (((fs.fileBytes file_path).drop (k * c)).take c) _ hex hst hid hsplit h1' hk
  have htrace : ((List.range k).map
        (fun i => (i, ((fs.fileBytes file_path).drop (i * c)).take c))).map
          (fun p => Request.append id p.1 p.2) ++
        [Request.append id k (((fs.fileBytes file_path).drop (k * c)).take c)] =
      (List.range (k + 1)).map
        (fun j => Request.append id j (((fs.fileBytes file_path).drop (j * c)).take c)) := by
    rw [List.range_succ, List.map_append, List.map_map]
    rfl
  rw [htrace] at hmain
  refine ⟨hmain, ?_, ?_⟩
  · intro m
    rw [hmain]
    simp
  · intro m j ch hmem
    rw [hmain] at hmem
    simp only [List.mem_cons, List.mem_map, List.mem_range] at hmem
    rcases hmem with h | ⟨i, hi, heq⟩
    · exact absurd h (by simp)
    · have : i = j := by
        have := (Request.append.injEq _ _ _ _ _ _).mp heq
        exact this.2.1
      omega

/-- C4 witness: a five-chunk file upload (five bytes, chunk size one)
whose append for segment 2 fails: segments 3 and 4 are never attempted
and no finalize request is issued. -/
theorem claim_C4_witness :
    2 < (fileChunks 1 (smallFs.fileBytes "a.png")).length ∧
    (failAtT 2).append 2 = Response.mk 500 "boom" none ∧
    (upload_media smallFs (failAtT 2) 1 "a.png" =
      (Except.error (UploadError.appendError 2 ((failAtT 2).append 2).status_code
          ((failAtT 2).append 2).text),
        Request.initUpload (get_media_type "a.png").1 (smallFs.fileBytes "a.png").length
            (get_media_type "a.png").2 ::
          (List.range 3).map
            (fun j => Request.append "m1" j (((smallFs.fileBytes "a.png").drop (j * 1)).take 1))) ∧
      (∀ m, Request.finalize m ∉ (upload_media smallFs (failAtT 2) 1 "a.png").2) ∧
      (∀ m j ch, Request.append m j ch ∈ (upload_media smallFs (failAtT 2) 1 "a.png").2 →
        j ≤ 2)) := by
  have hklt : 2 < (fileChunks 1 (smallFs.fileBytes "a.png")).length := by
    rw [fileChunks_closedForm 1 (Nat.zero_lt_succ 0)]
    decide
  refine ⟨hklt, rfl, ?_⟩
  exact claim_C4 smallFs (failAtT 2) 1 (Nat.zero_lt_succ 0) "a.png" "m1" 2 rfl rfl
    (by decide) hklt
    (by
      intro j hj
      simp only [failAtT]
      rw [if_neg (by omega)])
    (by decide)

/-- C5 counterexample: an initialize response with success status 200 but
no identifier in its data object makes the upload fail with the
missing-media-id error, which is not an InitializationError carrying the
response status and body — refuting the claim that every initialize
failure carries them. -/
theorem claim_C5_counterexample :
    upload_media smallFs noIdT 1 "a.png" =
      (Except.error UploadError.missingMediaId,
        [Request.initUpload "image/png" 5 "tweet_image"]) ∧
    UploadError.missingMediaId ≠
      UploadError.initializationError noIdT.init.status_code noIdT.init.text := by
  refine ⟨?_, by decide⟩
  exact upload_media_noId smallFs noIdT 1 "a.png" rfl rfl rfl

/-- C5 (amended): the initialize phase succeeds iff the response status is
200 and the data object holds a non-empty identifier.  On a non-200
response the upload raises the initialization error carrying the response
status and body; on a 200 response without identifier it raises the
missing-media-id error, which carries neither; in both failure cases no
append call is attempted (the request trace is the single initialize
request). -/
theorem claim_C5 (fs : FileSystem) (t : Transport) (c : Nat) (file_path : String)
    (hex : fs.pathExists file_path = true) :
    ((∃ id, (initializeUpload t (get_media_type file_path).1
        (fs.fileBytes file_path).length (get_media_type file_path).2).1 = Except.ok id) ↔
      (t.init.status_code = 200 ∧ mediaIdOf t.init ≠ none)) ∧
    (t.init.status_code ≠ 200 →
      upload_media fs t c file_path =
        (Except.error (UploadError.initializationError t.init.status_code t.init.text),
          [Request.initUpload (get_media_type file_path).1 (fs.fileBytes file_path).length
            (get_media_type file_path).2])) ∧
    (t.init.status_code = 200 → mediaIdOf t.init = none →
      upload_media fs t c file_path =
        (Except.error UploadError.missingMediaId,
          [Request.initUpload (get_media_type file_path).1 (fs.fileBytes file_path).length
            (get_media_type file_path).2])) := by
  refine ⟨?_, ?_, ?_⟩
  · constructor
    · rintro ⟨id, hok⟩
      by_cases hst : t.init.status_code = 200
      · refine ⟨hst, ?_⟩
        rcases hmid : mediaIdOf t.init with _ | s
        · rw [initializeUpload_noId t _ _ _ hst hmid] at hok
          simp at hok
        · simp
      · rw [initializeUpload_badStatus t _ _ _ hst] at hok
        simp at hok
    · rintro ⟨hst, hmid⟩
      rcases hmid2 : mediaIdOf t.init with _ | s
      · exact absurd hmid2 hmid
      · refine ⟨s, ?_⟩
        rw [initializeUpload_ok t _ _ _ s hst hmid2]
  · intro hst
    exact upload_media_badStatus fs t c file_path hex hst
  · intro hst hmid
    exact upload_media_noId fs t c file_path hex hst hmid

/-- C5 witness: the amended claim instantiated at a transport whose
initialize response is an HTTP 401. -/
theorem claim_C5_witness :
    smallFs.pathExists "a.png" = true ∧
    badT.init.status_code ≠ 200 ∧
    ((∃ id, (initializeUpload badT (get_media_type "a.png").1
        (smallFs.fileBytes "a.png").length (get_media_type "a.png").2).1 = Except.ok id) ↔
      (badT.init.status_code = 200 ∧ mediaIdOf badT.init ≠ none)) ∧
    (badT.init.status_code ≠ 200 →
      upload_media smallFs badT 1 "a.png" =
        (Except.error (UploadError.initializationError badT.init.status_code badT.init.text),
          [Request.initUpload (get_media_type "a.png").1 (smallFs.fileBytes "a.png").length
            (get_media_type "a.png").2])) := by
  have h := claim_C5 smallFs badT 1 "a.png" rfl
  exact ⟨rfl, by decide, h.1, h.2.1⟩

/-- C6: for an empty payload chunking produces zero chunks, and the upload
issues the initialize request and the finalize request but no append
request, still returning the remote identifier. -/
theorem claim_C6 (t : Transport) (c : Nat) (hc : 0 < c)
    (media_type filename id : String)
    (hst : t.init.status_code = 200) (hid : mediaIdOf t.init = some id)
    (hfin : t.finalize.status_code = 200) :
    bytesChunks c hc [] = [] ∧
    fileChunks c [] = [] ∧
    upload_media_from_bytes t c hc [] media_type filename =
      (Except.ok id,
        [Request.initUpload media_type 0 (infer_media_category media_type),
          Request.finalize id]) := by
  have hb : bytesChunks c hc ([] : List Nat) = [] := by
    rw [bytesChunks, bytesChunksAux]
    simp
  have hfile : fileChunks c ([] : List Nat) = [] := by
    rw [fileChunks, fileChunksAux]
    simp
  refine ⟨hb, hfile, ?_⟩
  have hsucc := upload_media_from_bytes_success t c hc [] media_type filename id hst hid
    (by
      rw [hb]
      intro p hp
      simp at hp) hfin
  rw [hsucc, hb]
  simp

/-- C6 witness: the empty-payload upload at a concrete all-success
transport. -/
theorem claim_C6_witness :
    (okT "m9").init.status_code = 200 ∧
    mediaIdOf (okT "m9").init = some "m9" ∧
    (okT "m9").finalize.status_code = 200 ∧
    (bytesChunks 3 (Nat.zero_lt_succ 2) [] = [] ∧
      fileChunks 3 [] = [] ∧
      upload_media_from_bytes (okT "m9") 3 (Nat.zero_lt_succ 2) [] "video/mp4" "f" =
        (Except.ok "m9",
          [Request.initUpload "video/mp4" 0 (infer_media_category "video/mp4"),
            Request.finalize "m9"])) :=
  ⟨rfl, by decide, rfl,
    claim_C6 (okT "m9") 3 (Nat.zero_lt_succ 2) "video/mp4" "f" "m9" rfl (by decide) rfl⟩

/-- C3 counterexample: with a finalize response carrying identifier `mB`
and an initialize response carrying `mA`, the 2,500,000-byte upload with
chunk size 1,048,576 returns `mA` — the identifier from the initialize
response, not the one in the finalize response — refuting the claim that
the returned identifier equals the one returned by the finalize
response. -/
theorem claim_C3_counterexample :
    (upload_media_from_bytes mismatchT DEFAULT_CHUNK_SIZE DEFAULT_CHUNK_SIZE_pos
        (List.replicate 2500000 0) "video/mp4" "media").1 = Except.ok "mA" ∧
    mismatchT.finalize.dataId = some "mB" ∧
    ("mA" : String) ≠ "mB" := by
  refine ⟨?_, rfl, by decide⟩
  rw [upload_media_from_bytes_success mismatchT DEFAULT_CHUNK_SIZE DEFAULT_CHUNK_SIZE_pos
    (List.replicate 2500000 0) "video/mp4" "media" "mA" rfl (by decide)
    (fun p _ => rfl) rfl]

/-- C3 (amended): for every payload of exactly 2,500,000 bytes uploaded
with chunk size 1,048,576 over a transport whose calls all succeed, the
upload issues exactly 3 append calls with segment indices 0, 1, 2 and
chunk lengths 1048576, 1048576, 402848 respectively, and the returned
identifier is the identifier carried by the initialize response (the
finalize response body is never consulted). -/
theorem claim_C3 (data : List Nat) (t : Transport) (id media_type filename : String)
    (hlen : data.length = 2500000)
    (hst : t.init.status_code = 200) (hid : mediaIdOf t.init = some id)
    (happ : ∀ j, (t.append j).status_code = 200)
    (hfin : t.finalize.status_code = 200) :
    (bytesChunks DEFAULT_CHUNK_SIZE DEFAULT_CHUNK_SIZE_pos data).map
        (fun p => (p.1, p.2.length)) =
      [(0, 1048576), (1, 1048576), (2, 402848)] ∧
    upload_media_from_bytes t DEFAULT_CHUNK_SIZE DEFAULT_CHUNK_SIZE_pos data
        media_type filename =
      (Except.ok id,
        Request.initUpload media_type 2500000 (infer_media_category media_type) ::
          ((bytesChunks DEFAULT_CHUNK_SIZE DEFAULT_CHUNK_SIZE_pos data).map
              (fun p => Request.append id p.1 p.2) ++
            [Request.finalize id])) := by
  constructor
  · rw [bytesChunks_closedForm, chunksClosedForm, hlen]
    rw [show (2500000 + DEFAULT_CHUNK_SIZE - 1) / DEFAULT_CHUNK_SIZE = 3 by
      norm_num [DEFAULT_CHUNK_SIZE]]
    rw [show List.range 3 = [0, 1, 2] by rfl]
    simp [List.length_take, List.length_drop, hlen, DEFAULT_CHUNK_SIZE]
  · have hsucc := upload_media_from_bytes_success t DEFAULT_CHUNK_SIZE
      DEFAULT_CHUNK_SIZE_pos data media_type filename id hst hid
      (fun p _ => happ p.1) hfin
    rw [hsucc, hlen]

/-- C3 witness: the amended claim at the all-success transport `okT "m7"`
and the all-zero payload of 2,500,000 bytes. -/
theorem claim_C3_witness :
    (List.replicate 2500000 (0 : Nat)).length = 2500000 ∧
    ((bytesChunks DEFAULT_CHUNK_SIZE DEFAULT_CHUNK_SIZE_pos
          (List.replicate 2500000 (0 : Nat))).map (fun p => (p.1, p.2.length)) =
        [(0, 1048576), (1, 1048576), (2, 402848)] ∧
      upload_media_from_bytes (okT "m7") DEFAULT_CHUNK_SIZE DEFAULT_CHUNK_SIZE_pos
          (List.replicate 2500000 (0 : Nat)) "video/mp4" "media" =
        (Except.ok "m7",
          Request.initUpload "video/mp4" 2500000 (infer_media_category "video/mp4") ::
            ((bytesChunks DEFAULT_CHUNK_SIZE DEFAULT_CHUNK_SIZE_pos
                  (List.replicate 2500000 (0 : Nat))).map
                (fun p => Request.append "m7" p.1 p.2) ++
              [Request.finalize "m7"]))) :=
  ⟨by rw [List.length_replicate],
    claim_C3 (List.replicate 2500000 (0 : Nat)) (okT "m7") "m7" "video/mp4" "media"
      (by rw [List.length_replicate]) rfl (by decide) (fun _ => rfl) rfl⟩

end TwitterMcp
